import Mathlib

/-!
Shallow embedding of the session-scheduling subsystem of the LockedIn backend
(`src/routes/sessions.js`, `src/middleware/auth.js`, `src/server.js`).

Conventions of the embedding:
* Machine state is the relational store (`sessions`, `session_invites`,
  `group_members`, `profiles`) as Lean lists.
* Timestamps are `Nat` milliseconds-since-epoch (the code compares
  `new Date(x).getTime()` values, i.e. millisecond instants).
* The request body's `start_at` field is embedded post-parsing: absent,
  unparseable (`isNaN(new Date(x).getTime())`), or a parsed instant.
* Each route handler is a pure function from the store (plus request data and
  a wall clock `now`) to a response, an updated store, and a trace of store /
  email events.  Awaited external email dispatch that throws is modelled by a
  `emailThrows` oracle on recipient addresses; a throw inside the per-member
  try/catch of the create fan-out is swallowed, elsewhere it propagates to the
  express error middleware (`server.js`), which answers 500.
* `.single()` returning zero rows is modelled as `data = null, error = null`,
  the collaborator behaviour fixed by the repository's own test doubles.
-/

set_option synthInstance.maxHeartbeats 1000000
set_option maxHeartbeats 1000000

namespace LockedIn

abbrev UserId := String
abbrev GroupId := Nat
abbrev SessionId := Nat
abbrev Time := Nat

/-- A row of the `sessions` table. `start_at` is the parsed instant: every
session persisted by the create route has passed the date validation. -/
structure Session where
  id : SessionId
  group_id : GroupId
  creator_id : UserId
  start_at : Time
  venue : Option String := none
  topic : Option String := none
  time_goal_minutes : Option Nat := none
  content_goal : Option String := none
deriving DecidableEq, Repr

/-- RSVP status of a `session_invites` row. -/
inductive InviteStatus
  | pending
  | accepted
  | declined
deriving DecidableEq, Repr

/-- A row of the `session_invites` table. -/
structure Invite where
  session_id : SessionId
  user_id : UserId
  status : InviteStatus
  responded_at : Option Time := none
deriving DecidableEq, Repr

/-- A row of the `profiles` table (the fields the session routes read). -/
structure Profile where
  id : UserId
  email : Option String := none
  full_name : String := ""
deriving DecidableEq, Repr

/-- The relational store as seen by the session routes. -/
structure Store where
  sessions : List Session := []
  invites : List Invite := []
  group_members : List (GroupId × UserId) := []
  profiles : List Profile := []
deriving DecidableEq, Repr

/-- Observable store/email events emitted while a route handler runs. -/
inductive Event
  | queryAcceptedInvites (u : UserId)
  | querySessionsByIds (ids : List SessionId)
  | querySessionsSubquery (u : UserId)
  | queryProfile (u : UserId)
  | emailSent (rcpt subject : String)
  | emailFailed (rcpt subject : String)
  | insertInviteEvt (sid : SessionId) (u : UserId)
  | upsertInviteEvt (sid : SessionId) (u : UserId) (st : InviteStatus)
deriving DecidableEq, Repr

/-- Events that read the `sessions` table during a conflict check. -/
def Event.isSessionLookup : Event → Bool
  | .querySessionsByIds _ => true
  | .querySessionsSubquery _ => true
  | _ => false

/-- An HTTP response: status code and the user-visible message. -/
structure Response where
  status : Nat
  msg : String := ""
deriving DecidableEq, Repr

/-- Result of running a route handler: response, next store state, event
trace, and (for create) the session returned in the response body. -/
structure RouteResult where
  resp : Response
  store : Store
  events : List Event
  body_session : Option Session := none
deriving DecidableEq, Repr

/-! ### Identity resolution (`getUser` in sessions.js, error middleware in server.js) -/

/-- What the external auth verifier returns for a token:
`data.user` and `error`, as destructured by `supabase.auth.getUser`. -/
structure VerifierResponse where
  user : Option UserId
  error : Option String
deriving DecidableEq, Repr

/-- `authHeader.startsWith("Bearer ") ? authHeader.slice(7) : null`.
The `startsWith` test is embedded as the equivalent prefix test on the
character list. -/
def extractToken (authHeader : String) : Option String :=
  if authHeader.data.take 7 = "Bearer ".data then some (authHeader.drop 7) else none

/-- `getUser(req)`: `if (!token) return null` — a null token, and equally an
empty sliced token (JS falsiness, header exactly "Bearer "), yields `null`
without consulting the verifier; a verifier `error` is thrown
(`Except.error`); otherwise `data?.user || null` is returned. -/
def getUser (authHeader : String) (verify : String → VerifierResponse) :
    Except String (Option UserId) :=
  match extractToken authHeader with
  | none => .ok none
  | some tok =>
    if tok = "" then .ok none
    else
      match (verify tok).error with
      | some e => .error e
      | none => .ok (verify tok).user

/-- How a route reacts to `getUser`: proceed as `u`, answer 401
(`if (!user) return res.status(401)`), or throw to the express error
middleware, which answers 500. -/
inductive IdentityOutcome
  | proceed (u : UserId)
  | unauthorized
  | internalError (e : String)
deriving DecidableEq, Repr

/-- Composition of `getUser` with the uniform per-route mapping of its
result onto HTTP outcomes. -/
def resolveIdentity (authHeader : String) (verify : String → VerifierResponse) :
    IdentityOutcome :=
  match getUser authHeader verify with
  | .error e => .internalError e
  | .ok none => .unauthorized
  | .ok (some u) => .proceed u

/-! ### Store helpers -/

/-- `requireGroupMember`: existence lookup in `group_members`. -/
def requireGroupMember (st : Store) (g : GroupId) (u : UserId) : Bool :=
  st.group_members.any (fun p => p.1 == g && p.2 == u)

/-- `profiles` lookup by id (`.eq("id", u).single()`). -/
def findProfile (st : Store) (u : UserId) : Option Profile :=
  st.profiles.find? (fun p => p.id == u)

/-- `sessions` lookup by id (`.eq("id", sid).single()`), zero rows giving
`null` per the repository's own collaborator model. -/
def findSession (st : Store) (sid : SessionId) : Option Session :=
  st.sessions.find? (fun s => s.id == sid)

/-- Session ids of a user's accepted invites
(`session_invites.select("session_id").eq("user_id", u).eq("status", "accepted")`). -/
def acceptedSessionIds (invites : List Invite) (u : UserId) : List SessionId :=
  (invites.filter (fun i => i.user_id == u && i.status == .accepted)).map
    (fun i => i.session_id)

/-- `session_invites` upsert keyed by (session_id, user_id): overwrite the
matching row(s), else insert. -/
def upsertInvite (invites : List Invite) (i : Invite) : List Invite :=
  if invites.any (fun j => j.session_id == i.session_id && j.user_id == i.user_id) then
    invites.map (fun j =>
      if j.session_id == i.session_id && j.user_id == i.user_id then i else j)
  else invites ++ [i]

/-- Store-assigned fresh session id (strictly above every existing id). -/
def freshId (st : Store) : SessionId :=
  (st.sessions.map (fun s => s.id)).foldr max 0 + 1

/-- The members query of the create route: `group_members` rows of the group
other than the creator, joined to their `profiles` row. -/
def memberProfiles (st : Store) (g : GroupId) (creator : UserId) : List Profile :=
  (st.group_members.filter (fun p => p.1 == g && p.2 != creator)).filterMap
    (fun p => findProfile st p.2)

/-! ### Conflict checks -/

/-- The conflict check inlined in the create fan-out loop: fetch the member's
accepted-invite session ids; only `if (acceptedSessions.length > 0)` fetch
those sessions and compare start instants for exact equality. Returns the
flag and the queries performed. -/
def hasConflictCreate (invites : List Invite) (sessions : List Session)
    (u : UserId) (t : Time) : Bool × List Event :=
  let acc := acceptedSessionIds invites u
  if acc.length > 0 then
    let conflicts := sessions.filter (fun s => acc.contains s.id)
    (conflicts.any (fun s => s.start_at == t),
     [.queryAcceptedInvites u, .querySessionsByIds acc])
  else
    (false, [.queryAcceptedInvites u])

/-- The conflict query of the respond route: one `sessions` query whose `in`
filter nests the accepted-invites subquery; it is issued unconditionally. -/
def respondConflicts (st : Store) (u : UserId) : List Session × List Event :=
  (st.sessions.filter (fun s => (acceptedSessionIds st.invites u).contains s.id),
   [.querySessionsSubquery u])

/-! ### Route handlers (with the caller's identity already resolved) -/

/-- The request body of the create route; `start_at` is embedded after
`new Date` parsing. -/
inductive StartAtField
  | missing
  | unparseable
  | time (t : Time)
deriving DecidableEq, Repr

structure CreateBody where
  start_at : StartAtField
  venue : Option String := none
  topic : Option String := none
  time_goal_minutes : Option Nat := none
  content_goal : Option String := none
deriving DecidableEq, Repr

/-- The conflict-alert subject line used by the fan-out and the respond route. -/
def conflictSubject (name : String) : String :=
  "Conflict: " ++ name ++ " already booked"

/-- The invitation subject line used by the fan-out. -/
def inviteSubject : String := "New Study Session in your group"

/-- One iteration of the create fan-out loop for member profile `m`:
skip members without an email, run the conflict check, then either alert the
creator (conflict) or send the invitation and insert the pending invite.
A thrown email dispatch is caught by the per-member try/catch. -/
def processMember (creator : UserId) (sid : SessionId) (t : Time)
    (emailThrows : String → Bool) (st : Store) (evs : List Event)
    (m : Profile) : Store × List Event :=
  match m.email with
  | none => (st, evs)
  | some addr =>
    let c := hasConflictCreate st.invites st.sessions m.id t
    if c.1 then
      let evs2 := evs ++ c.2 ++ [Event.queryProfile creator]
      match (findProfile st creator).bind (fun p => p.email) with
      | some ce =>
        let subj := "Conflict: " ++ m.full_name ++ " already booked"
        if emailThrows ce then (st, evs2 ++ [.emailFailed ce subj])
        else (st, evs2 ++ [.emailSent ce subj])
      | none => (st, evs2)
    else
      let subj := "New Study Session in your group"
      if emailThrows addr then
        (st, evs ++ c.2 ++ [.emailFailed addr subj])
      else
        ({ st with invites :=
             st.invites ++ [{ session_id := sid, user_id := m.id,
                              status := .pending, responded_at := none }] },
         evs ++ c.2 ++ [.emailSent addr subj, .insertInviteEvt sid m.id])

/-- The fan-out loop of the create route: fold `processMember` over the
member profiles, threading the store and the event trace. -/
def fanout (creator : UserId) (sid : SessionId) (t : Time) (et : String → Bool)
    (ms : List Profile) (st : Store) (evs : List Event) : Store × List Event :=
  ms.foldl (fun acc m => processMember creator sid t et acc.1 acc.2 m) (st, evs)

/-- The session row inserted by the create route (store-assigned fresh id). -/
def newSession (st : Store) (g : GroupId) (caller : UserId) (body : CreateBody)
    (t : Time) : Session :=
  { id := freshId st, group_id := g, creator_id := caller, start_at := t,
    venue := body.venue, topic := body.topic,
    time_goal_minutes := body.time_goal_minutes,
    content_goal := body.content_goal }

/-- POST `/groups/:groupId/sessions` with the caller already authenticated:
membership gate, `start_at` validation, session insert, then the per-member
fan-out. -/
def createRoute (st : Store) (g : GroupId) (caller : UserId) (body : CreateBody)
    (now : Time) (emailThrows : String → Bool) : RouteResult :=
  if !(requireGroupMember st g caller) then
    { resp := { status := 403, msg := "Not a group member" }, store := st, events := [] }
  else
    match body.start_at with
    | .missing =>
      { resp := { status := 400, msg := "start_at is required" }, store := st, events := [] }
    | .unparseable =>
      { resp := { status := 400, msg := "Invalid start_at" }, store := st, events := [] }
    | .time t =>
      if t < now then
        { resp := { status := 400, msg := "start_at cannot be in the past" },
          store := st, events := [] }
      else
        if (memberProfiles { st with sessions := st.sessions ++ [newSession st g caller body t] }
              g caller).isEmpty then
          { resp := { status := 200 },
            store := { st with sessions := st.sessions ++ [newSession st g caller body t] },
            events := [],
            body_session := some (newSession st g caller body t) }
        else
          { resp := { status := 200 },
            store := (fanout caller (freshId st) t emailThrows
              (memberProfiles { st with sessions := st.sessions ++ [newSession st g caller body t] } g caller)
              { st with sessions := st.sessions ++ [newSession st g caller body t] } []).1,
            events := (fanout caller (freshId st) t emailThrows
              (memberProfiles { st with sessions := st.sessions ++ [newSession st g caller body t] } g caller)
              { st with sessions := st.sessions ++ [newSession st g caller body t] } []).2,
            body_session := some (newSession st g caller body t) }

/-- POST `/groups/:groupId/sessions/:sessionId/respond` with the caller
already authenticated: status validation, membership gate, session fetch,
conflict check on accept (409 plus a creator alert), then the invite upsert. -/
def respondRoute (st : Store) (g : GroupId) (sid : SessionId) (caller : UserId)
    (status : String) (now : Time) (emailThrows : String → Bool) : RouteResult :=
  if !(status == "accepted" || status == "declined") then
    { resp := { status := 400, msg := "Invalid status" }, store := st, events := [] }
  else if !(requireGroupMember st g caller) then
    { resp := { status := 403, msg := "Not a group member" }, store := st, events := [] }
  else
    match findSession st sid with
    | none =>
      { resp := { status := 404, msg := "Session not found" }, store := st, events := [] }
    | some session =>
      if status == "accepted" then
        match (respondConflicts st caller).1.find? (fun x => x.start_at == session.start_at) with
        | some _ =>
          match (findProfile st session.creator_id).bind (fun p => p.email) with
          | some ce =>
            if emailThrows ce then
              { resp := { status := 500, msg := "Internal Server Error" },
                store := st,
                events := (respondConflicts st caller).2
                  ++ [Event.queryProfile caller, Event.queryProfile session.creator_id]
                  ++ [.emailFailed ce (conflictSubject
                        (((findProfile st caller).map (fun p => p.full_name)).getD ""))] }
            else
              { resp := { status := 409, msg := "You already accepted a session at this time" },
                store := st,
                events := (respondConflicts st caller).2
                  ++ [Event.queryProfile caller, Event.queryProfile session.creator_id]
                  ++ [.emailSent ce (conflictSubject
                        (((findProfile st caller).map (fun p => p.full_name)).getD ""))] }
          | none =>
            { resp := { status := 409, msg := "You already accepted a session at this time" },
              store := st,
              events := (respondConflicts st caller).2
                ++ [Event.queryProfile caller, Event.queryProfile session.creator_id] }
        | none =>
          { resp := { status := 200, msg := "Invite accepted" },
            store := { st with
              invites := upsertInvite st.invites ⟨sid, caller, .accepted, some now⟩ },
            events := (respondConflicts st caller).2 ++ [.upsertInviteEvt sid caller .accepted] }
      else
        { resp := { status := 200, msg := "Invite declined" },
          store := { st with
            invites := upsertInvite st.invites ⟨sid, caller, .declined, some now⟩ },
          events := [.upsertInviteEvt sid caller .declined] }

/-- DELETE `/groups/:groupId/sessions/:sessionId` with the caller already
authenticated: membership gate, session fetch (404 when absent), creator
check (403), then the delete. -/
def deleteRoute (st : Store) (g : GroupId) (sid : SessionId) (caller : UserId) :
    RouteResult :=
  if !(requireGroupMember st g caller) then
    { resp := { status := 403, msg := "Not a group member" }, store := st, events := [] }
  else
    match findSession st sid with
    | none =>
      { resp := { status := 404, msg := "Session not found" }, store := st, events := [] }
    | some s =>
      if s.creator_id != caller then
        { resp := { status := 403, msg := "Only the creator can delete" },
          store := st, events := [] }
      else
        { resp := { status := 200, msg := "Session deleted" },
          store := { st with sessions := st.sessions.filter (fun x => x.id != sid) },
          events := [] }

/-- Insertion (stable) into a list sorted ascending by start instant. -/
def insertSorted (s : Session) : List Session → List Session
  | [] => [s]
  | x :: xs => if s.start_at ≤ x.start_at then s :: x :: xs else x :: insertSorted s xs

/-- `order("start_at", { ascending: true })`. -/
def sortByStart (l : List Session) : List Session := l.foldr insertSorted []

/-- GET `/groups/:groupId/sessions` with the caller already authenticated. -/
def listSessionsRoute (st : Store) (g : GroupId) (caller : UserId) :
    Response × List Session :=
  if !(requireGroupMember st g caller) then
    ({ status := 403, msg := "Not a group member" }, [])
  else
    ({ status := 200 }, sortByStart (st.sessions.filter (fun s => s.group_id == g)))

/-- The respond endpoint with authentication: `getUser` then the handler;
a thrown verifier error reaches the express error middleware (500). -/
def respondEndpoint (st : Store) (g : GroupId) (sid : SessionId)
    (authHeader : String) (verify : String → VerifierResponse)
    (status : String) (now : Time) (emailThrows : String → Bool) : RouteResult :=
  match resolveIdentity authHeader verify with
  | .unauthorized =>
    { resp := { status := 401, msg := "Unauthorized" }, store := st, events := [] }
  | .internalError e =>
    { resp := { status := 500, msg := e }, store := st, events := [] }
  | .proceed u => respondRoute st g sid u status now emailThrows

/-! ### The operation alphabet for invariant claims -/

/-- One create or authenticated respond operation. -/
inductive Op
  | createOp (g : GroupId) (caller : UserId) (body : CreateBody) (now : Time)
      (emailThrows : String → Bool)
  | respondOp (g : GroupId) (sid : SessionId) (caller : UserId) (status : String)
      (now : Time) (emailThrows : String → Bool)

/-- Store effect of one operation. -/
def runOp (st : Store) (op : Op) : Store :=
  match op with
  | .createOp g c b now et => (createRoute st g c b now et).store
  | .respondOp g sid c status now et => (respondRoute st g sid c status now et).store

/-- Store effect of a sequence of operations. -/
def runOps (st : Store) (ops : List Op) : Store := ops.foldl runOp st

/-- Does invite `i` belong to user `u`, carry status accepted, and join (via
`sessions`) to a session starting exactly at `t`? -/
def acceptedAtP (sessions : List Session) (u : UserId) (t : Time) (i : Invite) : Bool :=
  i.user_id == u && i.status == .accepted &&
    sessions.any (fun s => s.id == i.session_id && s.start_at == t)

/-- The accepted invites of user `u` whose session starts exactly at `t`. -/
def acceptedAt (st : Store) (u : UserId) (t : Time) : List Invite :=
  st.invites.filter (acceptedAtP st.sessions u t)

/-- The no-double-booking invariant. -/
def NoDoubleBooking (st : Store) : Prop :=
  ∀ u t, (acceptedAt st u t).length ≤ 1

/-- Composite key of an invite row. -/
def inviteKey (i : Invite) : SessionId × UserId := (i.session_id, i.user_id)

/-- Relational well-formedness: invites reference existing sessions, session
ids are unique, invite composite keys are unique, membership rows are unique. -/
def WFStore (st : Store) : Prop :=
  (∀ i ∈ st.invites, ∃ s ∈ st.sessions, s.id = i.session_id) ∧
  (st.sessions.map (fun s => s.id)).Nodup ∧
  (st.invites.map inviteKey).Nodup ∧
  st.group_members.Nodup

/-- The pending invite row inserted by the create fan-out. -/
def pendingInvite (sid : SessionId) (u : UserId) : Invite :=
  { session_id := sid, user_id := u, status := .pending, responded_at := none }

/-! ### Concrete stores for witnesses and counterexamples -/

def emptyStore : Store := {}

/-- Group 1 with creator `c1` and member `u1`; one session at instant 100. -/
def exStore : Store :=
  { sessions := [{ id := 1, group_id := 1, creator_id := "c1", start_at := 100 }],
    invites := [],
    group_members := [(1, "c1"), (1, "u1")],
    profiles := [{ id := "c1", email := some "c@x", full_name := "C" },
                 { id := "u1", email := some "u@x", full_name := "U" }] }

/-- A single-member group (only the creator). -/
def exSoloStore : Store := { group_members := [(1, "u1")] }

/-- No email dispatch ever throws. -/
def noThrow : String → Bool := fun _ => false

/-- Group 1 with creator `c1` and three members with email addresses. -/
def exThreeStore : Store :=
  { sessions := [], invites := [],
    group_members := [(1, "c1"), (1, "a"), (1, "b"), (1, "d")],
    profiles := [{ id := "c1", email := some "c@x", full_name := "C" },
                 { id := "a", email := some "a@x", full_name := "A" },
                 { id := "b", email := some "b@x", full_name := "B" },
                 { id := "d", email := some "d@x", full_name := "D" }] }

/-- Email dispatch throws exactly for the second member's address. -/
def oneThrow : String → Bool := fun a => a == "b@x"

/-! ### Structural lemmas about the create fan-out -/

/-- The events a single fan-out iteration for member id `mid` may emit. -/
def allowedFanoutEvt (creator mid : UserId) (sid : SessionId) : Event → Prop
  | .queryAcceptedInvites u => u = mid
  | .querySessionsByIds _ => True
  | .queryProfile u => u = creator
  | .emailSent _ _ => True
  | .emailFailed _ _ => True
  | .insertInviteEvt s u => s = sid ∧ u = mid
  | _ => False

/-- Group 1 whose only non-creator member has no email address. -/
def exNoEmailStore : Store :=
  { sessions := [], invites := [],
    group_members := [(1, "c1"), (1, "u2")],
    profiles := [{ id := "c1", email := some "c@x", full_name := "C" },
                 { id := "u2", email := none, full_name := "N" }] }

theorem processMember_sessions (creator : UserId) (sid : SessionId) (t : Time)
    (et : String → Bool) (st : Store) (evs : List Event) (m : Profile) :
    (processMember creator sid t et st evs m).1.sessions = st.sessions := by
  unfold processMember
  cases m.email <;> simp only [] <;> (try split) <;> (try split) <;> (try split) <;> simp

theorem processMember_group_members (creator : UserId) (sid : SessionId) (t : Time)
    (et : String → Bool) (st : Store) (evs : List Event) (m : Profile) :
    (processMember creator sid t et st evs m).1.group_members = st.group_members := by
  unfold processMember
  cases m.email <;> simp only [] <;> (try split) <;> (try split) <;> (try split) <;> simp

theorem processMember_profiles (creator : UserId) (sid : SessionId) (t : Time)
    (et : String → Bool) (st : Store) (evs : List Event) (m : Profile) :
    (processMember creator sid t et st evs m).1.profiles = st.profiles := by
  unfold processMember
  cases m.email <;> simp only [] <;> (try split) <;> (try split) <;> (try split) <;> simp

theorem processMember_invites (creator : UserId) (sid : SessionId) (t : Time)
    (et : String → Bool) (st : Store) (evs : List Event) (m : Profile) :
    ∃ tail, (processMember creator sid t et st evs m).1.invites = st.invites ++ tail ∧
      (tail = [] ∨ tail = [pendingInvite sid m.id]) := by
  unfold processMember
  cases m.email with
  | none => exact ⟨[], by simp, Or.inl rfl⟩
  | some addr =>
    simp only []
    split
    · split
      · split
        · exact ⟨[], by simp, Or.inl rfl⟩
        · exact ⟨[], by simp, Or.inl rfl⟩
      · exact ⟨[], by simp, Or.inl rfl⟩
    · split
      · exact ⟨[], by simp, Or.inl rfl⟩
      · exact ⟨[pendingInvite sid m.id], by simp [pendingInvite], Or.inr rfl⟩

theorem processMember_events_mem (creator : UserId) (sid : SessionId) (t : Time)
    (et : String → Bool) (st : Store) (evs : List Event) (m : Profile) :
    ∀ e ∈ evs, e ∈ (processMember creator sid t et st evs m).2 := by
  intro e he
  unfold processMember
  cases m.email with
  | none => exact he
  | some addr =>
    simp only []
    split
    · split
      · split <;> simp [he]
      · simp [he]
    · split <;> simp [he]

theorem fanout_fields (creator : UserId) (sid : SessionId) (t : Time)
    (et : String → Bool) (ms : List Profile) :
    ∀ (st : Store) (evs : List Event),
      (fanout creator sid t et ms st evs).1.sessions = st.sessions ∧
      (fanout creator sid t et ms st evs).1.group_members = st.group_members ∧
      (fanout creator sid t et ms st evs).1.profiles = st.profiles := by
  induction ms with
  | nil => intro st evs; exact ⟨rfl, rfl, rfl⟩
  | cons m ms ih =>
    intro st evs
    have h := ih (processMember creator sid t et st evs m).1
      (processMember creator sid t et st evs m).2
    have hs := processMember_sessions creator sid t et st evs m
    have hg := processMember_group_members creator sid t et st evs m
    have hp := processMember_profiles creator sid t et st evs m
    simp only [fanout, List.foldl_cons] at h ⊢
    exact ⟨h.1.trans hs, h.2.1.trans hg, h.2.2.trans hp⟩

theorem fanout_invites (creator : UserId) (sid : SessionId) (t : Time)
    (et : String → Bool) (ms : List Profile) :
    ∀ (st : Store) (evs : List Event), ∃ tail,
      (fanout creator sid t et ms st evs).1.invites = st.invites ++ tail ∧
      (∀ i ∈ tail, i.status = .pending ∧ i.session_id = sid) ∧
      (tail.map (fun i => i.user_id)).Sublist (ms.map (fun m => m.id)) := by
  induction ms with
  | nil => intro st evs; exact ⟨[], by simp [fanout], by simp, by simp⟩
  | cons m ms ih =>
    intro st evs
    obtain ⟨t1, ht1, ht1c⟩ := processMember_invites creator sid t et st evs m
    obtain ⟨tail, htail, hp, hsub⟩ := ih (processMember creator sid t et st evs m).1
      (processMember creator sid t et st evs m).2
    refine ⟨t1 ++ tail, ?_, ?_, ?_⟩
    · simp only [fanout, List.foldl_cons] at htail ⊢
      rw [htail, ht1, List.append_assoc]
    · intro i hi
      rcases List.mem_append.1 hi with hi | hi
      · rcases ht1c with h | h
        · simp [h] at hi
        · rw [h] at hi
          simp only [List.mem_singleton] at hi
          subst hi
          exact ⟨rfl, rfl⟩
      · exact hp i hi
    · rw [List.map_append]
      rcases ht1c with h | h
      · subst h
        simp only [List.map_nil, List.nil_append, List.map_cons]
        exact hsub.cons _
      · subst h
        simp only [List.map_cons, List.map_nil, List.singleton_append, List.map_cons]
        exact hsub.cons₂ _

theorem memberProfiles_sessions_irrel (st : Store) (x : List Session)
    (g : GroupId) (c : UserId) :
    memberProfiles { st with sessions := x } g c = memberProfiles st g c := rfl

/-- Structure of the create route's store effect: either unchanged (a guard
failed) or the fresh session plus some pending invites for distinct members. -/
theorem createRoute_store_spec (st : Store) (g : GroupId) (caller : UserId)
    (body : CreateBody) (now : Time) (et : String → Bool) :
    (createRoute st g caller body now et).store = st ∨
    ∃ t tail, body.start_at = .time t ∧ ¬ t < now ∧
      (createRoute st g caller body now et).store.sessions
        = st.sessions ++ [newSession st g caller body t] ∧
      (createRoute st g caller body now et).store.invites = st.invites ++ tail ∧
      (createRoute st g caller body now et).store.group_members = st.group_members ∧
      (createRoute st g caller body now et).store.profiles = st.profiles ∧
      (∀ i ∈ tail, i.status = .pending ∧ i.session_id = freshId st) ∧
      (tail.map (fun i => i.user_id)).Sublist
        ((memberProfiles st g caller).map (fun m => m.id)) := by
  unfold createRoute
  split
  · exact Or.inl rfl
  · split
    · exact Or.inl rfl
    · exact Or.inl rfl
    · next t hb =>
      split
      · exact Or.inl rfl
      · next ht =>
        split
        · next he =>
          exact Or.inr ⟨t, [], hb, ht, rfl, by simp, rfl, rfl, by simp, by simp⟩
        · next he =>
          obtain ⟨tail, htail, hp, hsub⟩ :=
            fanout_invites caller (freshId st) t et
              (memberProfiles { st with sessions := st.sessions ++ [newSession st g caller body t] } g caller)
              { st with sessions := st.sessions ++ [newSession st g caller body t] } []
          have hfields := fanout_fields caller (freshId st) t et
              (memberProfiles { st with sessions := st.sessions ++ [newSession st g caller body t] } g caller)
              { st with sessions := st.sessions ++ [newSession st g caller body t] } []
          refine Or.inr ⟨t, tail, hb, ht, hfields.1, htail, hfields.2.1, hfields.2.2, hp, ?_⟩
          rw [memberProfiles_sessions_irrel] at hsub
          exact hsub

theorem mem_insertSorted {x s : Session} {l : List Session} :
    x ∈ insertSorted s l ↔ x = s ∨ x ∈ l := by
  induction l with
  | nil => simp [insertSorted]
  | cons y ys ih =>
    unfold insertSorted
    split
    · simp
    · simp only [List.mem_cons, ih]
      tauto

theorem mem_sortByStart {x : Session} {l : List Session} :
    x ∈ sortByStart l ↔ x ∈ l := by
  induction l with
  | nil => simp [sortByStart]
  | cons y ys ih =>
    show x ∈ insertSorted y (sortByStart ys) ↔ _
    rw [mem_insertSorted, ih]
    simp

theorem respondEndpoint_proceed (st : Store) (g : GroupId) (sid : SessionId)
    (hdr : String) (verify : String → VerifierResponse) (status : String)
    (now : Time) (et : String → Bool) (u : UserId)
    (hid : resolveIdentity hdr verify = .proceed u) :
    respondEndpoint st g sid hdr verify status now et
      = respondRoute st g sid u status now et := by
  unfold respondEndpoint
  rw [hid]

/-! ### C4 — identity resolution distinguishes 401 from 500 -/

/-- C4: a missing or empty bearer credential (the header lacks the Bearer
prefix, or carries an empty token — JS falsiness), or a verifier response
carrying no user and no error, resolves to the 401 outcome without regard to
the verifier's answer for the empty token; a verifier error on a nonempty
token propagates as an internal 500; the two outcomes are characterised by
disjoint conditions, and the respond endpoint maps them to 401 and 500
respectively. -/
theorem identity_401_vs_500 (hdr : String) (verify : String → VerifierResponse) :
    (resolveIdentity hdr verify = .unauthorized ↔
      extractToken hdr = none ∨
        ∃ tok, extractToken hdr = some tok ∧
          (tok = "" ∨ ((verify tok).user = none ∧ (verify tok).error = none))) ∧
    (∀ e, resolveIdentity hdr verify = .internalError e ↔
      ∃ tok, extractToken hdr = some tok ∧ tok ≠ "" ∧ (verify tok).error = some e) ∧
    (∀ (st : Store) (g : GroupId) (sid : SessionId) status now et,
      (resolveIdentity hdr verify = .unauthorized →
        (respondEndpoint st g sid hdr verify status now et).resp.status = 401) ∧
      (∀ e, resolveIdentity hdr verify = .internalError e →
        (respondEndpoint st g sid hdr verify status now et).resp.status = 500)) := by
  refine ⟨?_, ?_, fun st g sid status now et =>
    ⟨fun hu => by unfold respondEndpoint; rw [hu],
     fun e hi => by unfold respondEndpoint; rw [hi]⟩⟩
  · unfold resolveIdentity getUser
    cases hx : extractToken hdr with
    | none => simp
    | some tok =>
      by_cases htok : tok = ""
      · subst htok
        simp
      · cases he : (verify tok).error with
        | some e => simp [he, htok]
        | none =>
          cases hu : (verify tok).user with
          | none => simp [he, hu, htok]
          | some u => simp [he, hu, htok]
  · intro e
    unfold resolveIdentity getUser
    cases hx : extractToken hdr with
    | none => simp
    | some tok =>
      by_cases htok : tok = ""
      · subst htok
        simp
      · cases he : (verify tok).error with
        | some e0 => simp [he, htok]
        | none =>
          cases hu : (verify tok).user with
          | none => simp [he, hu, htok]
          | some u => simp [he, hu, htok]

theorem identity_401_vs_500_witness :
    resolveIdentity "Bearer " (fun _ => { user := some "evil", error := some "down" })
      = .unauthorized ∧
    resolveIdentity "x" (fun _ => { user := none, error := none }) = .unauthorized ∧
    (respondEndpoint emptyStore 1 1 "Bearer t"
      (fun _ => { user := none, error := some "down" }) "accepted" 0 noThrow).resp.status = 500 :=
  ⟨((identity_401_vs_500 "Bearer "
        (fun _ => { user := some "evil", error := some "down" })).1).mpr
      (Or.inr ⟨"", by decide, Or.inl rfl⟩),
   ((identity_401_vs_500 "x" (fun _ => { user := none, error := none })).1).mpr
      (Or.inl (by decide)),
   ((identity_401_vs_500 "Bearer t" (fun _ => { user := none, error := some "down" })).2.2
      emptyStore 1 1 "accepted" 0 noThrow).2 "down"
     (((identity_401_vs_500 "Bearer t" (fun _ => { user := none, error := some "down" })).2.1
        "down").mpr ⟨"t", by decide, by decide, rfl⟩)⟩

/-! ### C7 — non-member creation is side-effect free -/

/-- C7: a create request by a caller who is not a member of the target group
answers 403 and leaves both the sessions and the session_invites tables
unchanged. -/
theorem create_nonmember_no_writes (st : Store) (g : GroupId) (caller : UserId)
    (body : CreateBody) (now : Time) (et : String → Bool)
    (h : requireGroupMember st g caller = false) :
    (createRoute st g caller body now et).resp.status = 403 ∧
    (createRoute st g caller body now et).store.sessions = st.sessions ∧
    (createRoute st g caller body now et).store.invites = st.invites := by
  unfold createRoute
  rw [h]
  exact ⟨rfl, rfl, rfl⟩

theorem create_nonmember_no_writes_witness :
    requireGroupMember emptyStore 1 "u1" = false ∧
    (createRoute emptyStore 1 "u1" { start_at := .missing } 0 noThrow).resp.status = 403 :=
  ⟨by decide,
   (create_nonmember_no_writes emptyStore 1 "u1" { start_at := .missing } 0 noThrow
      (by decide)).1⟩

/-! ### C6 — respond check ordering (corrected) -/

/-- C6 counterexample: an authenticated caller who is not a member of group 2
sends the invalid status "maybe" and receives 400, not 403 — status
validation runs before the membership check. -/
theorem respond_nonmember_invalid_status_400 :
    requireGroupMember exStore 2 "u9" = false ∧
    (respondEndpoint exStore 2 1 "Bearer t" (fun _ => { user := some "u9", error := none })
        "maybe" 0 noThrow).resp.status = 400 ∧
    (respondEndpoint exStore 2 1 "Bearer t" (fun _ => { user := some "u9", error := none })
        "maybe" 0 noThrow).resp.status ≠ 403 := by decide

/-- C6 amended: in the respond endpoint authentication comes first, then
status validation, then the membership check; an authenticated non-member
gets 400 for an invalid status and 403 for a valid one. -/
theorem respond_check_order_amended (st : Store) (g : GroupId) (sid : SessionId)
    (hdr : String) (verify : String → VerifierResponse) (status : String)
    (now : Time) (et : String → Bool) (u : UserId)
    (hid : resolveIdentity hdr verify = .proceed u)
    (hm : requireGroupMember st g u = false) :
    (¬(status = "accepted" ∨ status = "declined") →
      (respondEndpoint st g sid hdr verify status now et).resp
        = { status := 400, msg := "Invalid status" }) ∧
    ((status = "accepted" ∨ status = "declined") →
      (respondEndpoint st g sid hdr verify status now et).resp
        = { status := 403, msg := "Not a group member" }) := by
  rw [respondEndpoint_proceed st g sid hdr verify status now et u hid]
  constructor
  · intro hs
    unfold respondRoute
    have hb : (status == "accepted" || status == "declined") = false := by
      rw [Bool.or_eq_false_iff]
      constructor <;> (rw [beq_eq_false_iff_ne]; tauto)
    rw [hb]
    rfl
  · intro hs
    unfold respondRoute
    have hb : (status == "accepted" || status == "declined") = true := by
      rcases hs with h | h <;> simp [h]
    rw [hb, hm]
    rfl

theorem respond_check_order_amended_witness :
    (respondEndpoint exStore 2 1 "Bearer t" (fun _ => { user := some "u9", error := none })
        "accepted" 0 noThrow).resp = { status := 403, msg := "Not a group member" } :=
  (respond_check_order_amended exStore 2 1 "Bearer t"
    (fun _ => { user := some "u9", error := none }) "accepted" 0 noThrow "u9"
    (by decide) (by decide)).2 (Or.inl rfl)

/-! ### C3 — strictly-future creation (corrected: the boundary instant passes) -/

/-- C3 counterexample: a create request whose start instant equals the wall
clock "now" (so start_at ≤ now) is accepted with 200 and persists a session —
the code only rejects instants strictly in the past. -/
theorem create_at_now_succeeds :
    requireGroupMember exSoloStore 1 "u1" = true ∧
    (createRoute exSoloStore 1 "u1" { start_at := .time 100 } 100 noThrow).resp.status = 200 ∧
    (createRoute exSoloStore 1 "u1" { start_at := .time 100 } 100 noThrow).store.sessions ≠ [] := by
  decide

/-- C3 amended: for an authenticated group member, a missing, unparseable, or
strictly-past start_at yields a 400 with a distinct message per sub-case and
persists nothing; a start_at at or after "now" yields 200 with the persisted
fresh-id session. -/
theorem create_start_at_validation (st : Store) (g : GroupId) (caller : UserId)
    (body : CreateBody) (now : Time) (et : String → Bool)
    (hm : requireGroupMember st g caller = true) :
    (body.start_at = .missing →
      (createRoute st g caller body now et).resp
        = { status := 400, msg := "start_at is required" } ∧
      (createRoute st g caller body now et).store = st) ∧
    (body.start_at = .unparseable →
      (createRoute st g caller body now et).resp
        = { status := 400, msg := "Invalid start_at" } ∧
      (createRoute st g caller body now et).store = st) ∧
    (∀ t, body.start_at = .time t → t < now →
      (createRoute st g caller body now et).resp
        = { status := 400, msg := "start_at cannot be in the past" } ∧
      (createRoute st g caller body now et).store = st) ∧
    (∀ t, body.start_at = .time t → now ≤ t →
      (createRoute st g caller body now et).resp.status = 200 ∧
      (createRoute st g caller body now et).body_session
        = some (newSession st g caller body t) ∧
      newSession st g caller body t ∈ (createRoute st g caller body now et).store.sessions) := by
  unfold createRoute
  rw [hm]
  refine ⟨fun hb => ?_, fun hb => ?_, fun t hb ht => ?_, fun t hb ht => ?_⟩
  · rw [hb]; exact ⟨rfl, rfl⟩
  · rw [hb]; exact ⟨rfl, rfl⟩
  · simp only [hb]
    rw [if_pos ht]
    exact ⟨rfl, rfl⟩
  · simp only [hb]
    rw [if_neg (Nat.not_lt.mpr ht)]
    by_cases he : (memberProfiles
        { st with sessions := st.sessions ++ [newSession st g caller body t] } g caller).isEmpty
    · rw [if_pos he]
      exact ⟨rfl, rfl, by simp⟩
    · rw [if_neg he]
      refine ⟨rfl, rfl, ?_⟩
      have hfields := fanout_fields caller (freshId st) t et
          (memberProfiles { st with sessions := st.sessions ++ [newSession st g caller body t] } g caller)
          { st with sessions := st.sessions ++ [newSession st g caller body t] } []
      show newSession st g caller body t ∈ (fanout caller (freshId st) t et _ _ []).1.sessions
      rw [hfields.1]
      simp

theorem create_start_at_validation_witness :
    requireGroupMember exSoloStore 1 "u1" = true ∧
    (createRoute exSoloStore 1 "u1" { start_at := .time 100 } 90 noThrow).resp.status = 200 :=
  ⟨by decide,
   ((create_start_at_validation exSoloStore 1 "u1" { start_at := .time 100 } 90 noThrow
      (by decide)).2.2.2 100 rfl (by decide)).1⟩

/-! ### C8 — conflict detection (corrected: no short-circuit on the respond path) -/

/-- C8 counterexample: user u1 has zero accepted invites, yet the respond-path
conflict check still performs its sessions-table lookup (while returning no
conflict) — the zero-accepted short-circuit exists only on the create path. -/
theorem respond_conflict_no_shortcircuit :
    acceptedSessionIds exStore.invites "u1" = [] ∧
    (respondConflicts exStore "u1").1.find? (fun c => c.start_at == 100) = none ∧
    (respondConflicts exStore "u1").2.any Event.isSessionLookup = true := by
  decide

/-- C8 amended: both conflict checks decide "conflict" exactly when some
session among the user's accepted invites starts at precisely the candidate
instant; with zero accepted invites both report no conflict, the create-path
check short-circuiting before any session lookup while the respond-path
check still issues its combined session query. -/
theorem conflict_exact_equality_amended (st : Store) (u : UserId) (t : Time) :
    ((hasConflictCreate st.invites st.sessions u t).1 = true ↔
      ∃ s ∈ st.sessions, s.id ∈ acceptedSessionIds st.invites u ∧ s.start_at = t) ∧
    (acceptedSessionIds st.invites u = [] →
      (hasConflictCreate st.invites st.sessions u t).1 = false ∧
      ∀ e ∈ (hasConflictCreate st.invites st.sessions u t).2, e.isSessionLookup = false) ∧
    (((respondConflicts st u).1.find? (fun c => c.start_at == t)).isSome ↔
      ∃ s ∈ st.sessions, s.id ∈ acceptedSessionIds st.invites u ∧ s.start_at = t) ∧
    (acceptedSessionIds st.invites u = [] →
      (respondConflicts st u).1.find? (fun c => c.start_at == t) = none ∧
      (respondConflicts st u).2.any Event.isSessionLookup = true) := by
  refine ⟨?_, fun h0 => ?_, ?_, fun h0 => ?_⟩
  · unfold hasConflictCreate
    by_cases hl : (acceptedSessionIds st.invites u).length > 0
    · rw [if_pos hl]
      simp only [List.any_eq_true, List.mem_filter, beq_iff_eq]
      constructor
      · rintro ⟨s, ⟨hs, hc⟩, hst⟩
        exact ⟨s, hs, by simpa using hc, hst⟩
      · rintro ⟨s, hs, hc, hst⟩
        exact ⟨s, ⟨hs, by simpa using hc⟩, hst⟩
    · rw [if_neg hl]
      have h0 : acceptedSessionIds st.invites u = [] :=
        List.length_eq_zero.mp (Nat.eq_zero_of_not_pos hl)
      simp [h0]
  · unfold hasConflictCreate
    rw [h0]
    simp [Event.isSessionLookup]
  · unfold respondConflicts
    simp only [List.find?_isSome, List.mem_filter, beq_iff_eq]
    constructor
    · rintro ⟨s, ⟨hs, hc⟩, hst⟩
      exact ⟨s, hs, by simpa using hc, hst⟩
    · rintro ⟨s, hs, hc, hst⟩
      exact ⟨s, ⟨hs, by simpa using hc⟩, hst⟩
  · unfold respondConflicts
    rw [h0]
    simp [Event.isSessionLookup]

theorem conflict_exact_equality_amended_witness :
    acceptedSessionIds exStore.invites "u1" = [] ∧
    (hasConflictCreate exStore.invites exStore.sessions "u1" 100).1 = false :=
  ⟨by decide, ((conflict_exact_equality_amended exStore "u1" 100).2.1 (by decide)).1⟩

/-! ### C5 — delete semantics -/

theorem deleteRoute_creator_eq (st : Store) (g : GroupId) (sid : SessionId)
    (caller : UserId) (s : Session) (hm : requireGroupMember st g caller = true)
    (hs : findSession st sid = some s) (heq : s.creator_id = caller) :
    deleteRoute st g sid caller =
      { resp := { status := 200, msg := "Session deleted" },
        store := { st with sessions := st.sessions.filter (fun x => x.id != sid) },
        events := [] } := by
  unfold deleteRoute
  rw [hm]
  simp only [hs]
  rw [show (s.creator_id != caller) = false by simp [bne, heq]]
  rfl

/-- C5: for an authenticated group member, deleting a missing session answers
404 with nothing changed; deleting another creator's session answers 403 with
the session still stored; deleting one's own session answers 200 and the
session no longer appears in the session listing. -/
theorem delete_semantics (st : Store) (g : GroupId) (sid : SessionId) (caller : UserId)
    (hm : requireGroupMember st g caller = true) :
    (findSession st sid = none →
      (deleteRoute st g sid caller).resp.status = 404 ∧
      (deleteRoute st g sid caller).store = st) ∧
    (∀ s, findSession st sid = some s → s.creator_id ≠ caller →
      (deleteRoute st g sid caller).resp.status = 403 ∧
      (deleteRoute st g sid caller).store = st ∧
      s ∈ (deleteRoute st g sid caller).store.sessions) ∧
    (∀ s, findSession st sid = some s → s.creator_id = caller →
      (deleteRoute st g sid caller).resp.status = 200 ∧
      ∀ x ∈ (listSessionsRoute (deleteRoute st g sid caller).store g caller).2, x.id ≠ sid) := by
  refine ⟨fun hn => ?_, fun s hs hne => ?_, fun s hs heq => ?_⟩
  · unfold deleteRoute
    rw [hm, hn]
    exact ⟨rfl, rfl⟩
  · unfold deleteRoute
    rw [hm]
    simp only [hs]
    have hb : (s.creator_id != caller) = true := by simpa [bne_iff_ne] using hne
    rw [hb]
    exact ⟨rfl, rfl, List.mem_of_find?_eq_some hs⟩
  · rw [deleteRoute_creator_eq st g sid caller s hm hs heq]
    refine ⟨rfl, ?_⟩
    intro x hx
    have hm2 : requireGroupMember
        { st with sessions := st.sessions.filter (fun x => x.id != sid) } g caller = true := hm
    unfold listSessionsRoute at hx
    rw [hm2] at hx
    simp only [Bool.not_true, Bool.false_eq_true, if_false] at hx
    have hx' := mem_sortByStart.mp hx
    have hx2 := (List.mem_filter.mp hx').1
    have hx3 := (List.mem_filter.mp hx2).2
    simpa [bne_iff_ne] using hx3

theorem delete_semantics_witness :
    requireGroupMember exStore 1 "c1" = true ∧
    (deleteRoute exStore 1 1 "c1").resp.status = 200 :=
  ⟨by decide,
   ((delete_semantics exStore 1 1 "c1" (by decide)).2.2
      { id := 1, group_id := 1, creator_id := "c1", start_at := 100 }
      (by decide) rfl).1⟩

/-! ### C10 — members without an email address are skipped entirely -/

theorem hasConflictCreate_events (invs : List Invite) (sess : List Session)
    (u : UserId) (t : Time) :
    (hasConflictCreate invs sess u t).2 = [.queryAcceptedInvites u] ∨
    (hasConflictCreate invs sess u t).2
      = [.queryAcceptedInvites u, .querySessionsByIds (acceptedSessionIds invs u)] := by
  by_cases hl : (acceptedSessionIds invs u).length > 0
  · right; simp [hasConflictCreate, hl]
  · left; simp [hasConflictCreate, hl]

theorem processMember_skip (creator : UserId) (sid : SessionId) (t : Time)
    (et : String → Bool) (st : Store) (evs : List Event) (m : Profile)
    (h : m.email = none) :
    processMember creator sid t et st evs m = (st, evs) := by
  unfold processMember
  rw [h]

theorem processMember_eq_conflict (creator : UserId) (sid : SessionId) (t : Time)
    (et : String → Bool) (st : Store) (evs : List Event) (m : Profile) (addr : String)
    (h1 : m.email = some addr)
    (h2 : (hasConflictCreate st.invites st.sessions m.id t).1 = true) :
    processMember creator sid t et st evs m =
      (st, (evs ++ (hasConflictCreate st.invites st.sessions m.id t).2
              ++ [Event.queryProfile creator]) ++
        (match (findProfile st creator).bind (fun p => p.email) with
         | some ce =>
            if et ce then [Event.emailFailed ce (conflictSubject m.full_name)]
            else [Event.emailSent ce (conflictSubject m.full_name)]
         | none => [])) := by
  unfold processMember
  simp only [h1, h2, if_true, conflictSubject]
  match hce : (findProfile st creator).bind (fun p => p.email) with
  | some ce =>
    by_cases hth : et ce
    · simp [hth]
    · simp [hth]
  | none => simp

theorem processMember_eq_fail (creator : UserId) (sid : SessionId) (t : Time)
    (et : String → Bool) (st : Store) (evs : List Event) (m : Profile) (addr : String)
    (h1 : m.email = some addr)
    (h2 : (hasConflictCreate st.invites st.sessions m.id t).1 = false)
    (h3 : et addr = true) :
    processMember creator sid t et st evs m =
      (st, evs ++ (hasConflictCreate st.invites st.sessions m.id t).2
        ++ [Event.emailFailed addr inviteSubject]) := by
  unfold processMember
  simp [h1, h2, h3, inviteSubject]

theorem processMember_eq_invite (creator : UserId) (sid : SessionId) (t : Time)
    (et : String → Bool) (st : Store) (evs : List Event) (m : Profile) (addr : String)
    (h1 : m.email = some addr)
    (h2 : (hasConflictCreate st.invites st.sessions m.id t).1 = false)
    (h3 : et addr = false) :
    processMember creator sid t et st evs m =
      ({ st with invites := st.invites ++ [pendingInvite sid m.id] },
       evs ++ (hasConflictCreate st.invites st.sessions m.id t).2
         ++ [Event.emailSent addr inviteSubject, Event.insertInviteEvt sid m.id]) := by
  unfold processMember
  simp [h1, h2, h3, inviteSubject, pendingInvite]

theorem processMember_events_shape (creator : UserId) (sid : SessionId) (t : Time)
    (et : String → Bool) (st : Store) (evs : List Event) (m : Profile) :
    ∀ e ∈ (processMember creator sid t et st evs m).2,
      e ∈ evs ∨ allowedFanoutEvt creator m.id sid e := by
  intro e he
  have hmemc : ∀ x, x ∈ (hasConflictCreate st.invites st.sessions m.id t).2 →
      allowedFanoutEvt creator m.id sid x := by
    intro x hx
    rcases hasConflictCreate_events st.invites st.sessions m.id t with hc | hc <;>
      rw [hc] at hx <;> simp only [List.mem_cons, List.mem_singleton, List.not_mem_nil,
        or_false] at hx
    · subst hx; exact rfl
    · rcases hx with hx | hx <;> subst hx
      · exact rfl
      · exact trivial
  cases hmail : m.email with
  | none =>
    rw [processMember_skip creator sid t et st evs m hmail] at he
    exact Or.inl he
  | some addr =>
    cases hcf : (hasConflictCreate st.invites st.sessions m.id t).1 with
    | true =>
      rw [processMember_eq_conflict creator sid t et st evs m addr hmail hcf] at he
      simp only [List.mem_append] at he
      rcases he with ((he | he) | he) | he
      · exact Or.inl he
      · exact Or.inr (hmemc e he)
      · simp only [List.mem_singleton] at he
        subst he; exact Or.inr rfl
      · right
        revert he
        match (findProfile st creator).bind (fun p => p.email) with
        | some ce =>
          by_cases hth : et ce <;> simp [hth] <;> rintro rfl <;> exact trivial
        | none => simp
    | false =>
      cases hth : et addr with
      | true =>
        rw [processMember_eq_fail creator sid t et st evs m addr hmail hcf hth] at he
        simp only [List.mem_append, List.mem_singleton] at he
        rcases he with (he | he) | he
        · exact Or.inl he
        · exact Or.inr (hmemc e he)
        · subst he; exact Or.inr trivial
      | false =>
        rw [processMember_eq_invite creator sid t et st evs m addr hmail hcf hth] at he
        simp only [List.mem_append, List.mem_cons, List.mem_singleton,
          List.not_mem_nil, or_false] at he
        rcases he with (he | he) | he | he
        · exact Or.inl he
        · exact Or.inr (hmemc e he)
        · subst he; exact Or.inr trivial
        · subst he; exact Or.inr ⟨rfl, rfl⟩

theorem processMember_other_user (creator : UserId) (sid : SessionId) (t : Time)
    (et : String → Bool) (st : Store) (evs : List Event) (m : Profile) (uid : UserId)
    (hne : m.id ≠ uid) :
    (∀ i ∈ (processMember creator sid t et st evs m).1.invites,
      i.user_id = uid → i ∈ st.invites) ∧
    (∀ e ∈ (processMember creator sid t et st evs m).2,
      e ∈ evs ∨ (e ≠ .queryAcceptedInvites uid ∧ ∀ s', e ≠ .insertInviteEvt s' uid)) := by
  obtain ⟨tail, htail, htc⟩ := processMember_invites creator sid t et st evs m
  constructor
  · intro i hi hiu
    rw [htail] at hi
    rcases List.mem_append.1 hi with hi | hi
    · exact hi
    · exfalso
      rcases htc with h | h
      · simp [h] at hi
      · rw [h] at hi
        simp only [List.mem_singleton] at hi
        rw [hi] at hiu
        exact hne hiu
  · intro e he
    rcases processMember_events_shape creator sid t et st evs m e he with h | h
    · exact Or.inl h
    · right
      cases e <;> simp_all [allowedFanoutEvt]

theorem fanout_skip_user (creator : UserId) (sid : SessionId) (t : Time)
    (et : String → Bool) (uid : UserId) (ms : List Profile)
    (hms : ∀ m ∈ ms, m.id = uid → m.email = none) :
    ∀ (st : Store) (evs : List Event),
      (∀ i ∈ (fanout creator sid t et ms st evs).1.invites,
        i.user_id = uid → i ∈ st.invites) ∧
      (∀ e ∈ (fanout creator sid t et ms st evs).2,
        e ∈ evs ∨ (e ≠ .queryAcceptedInvites uid ∧ ∀ s', e ≠ .insertInviteEvt s' uid)) := by
  induction ms with
  | nil => intro st evs; exact ⟨fun i hi _ => hi, fun e he => Or.inl he⟩
  | cons m ms ih =>
    intro st evs
    have hms' : ∀ m' ∈ ms, m'.id = uid → m'.email = none :=
      fun m' hm' => hms m' (List.mem_cons_of_mem m hm')
    have hstep := ih (fun m' hm' => hms' m' hm')
    by_cases hid : m.id = uid
    · have hmail : m.email = none := hms m (List.mem_cons_self m ms) hid
      have hpm := processMember_skip creator sid t et st evs m hmail
      have hfold : fanout creator sid t et (m :: ms) st evs
          = fanout creator sid t et ms st evs := by
        simp only [fanout, List.foldl_cons, hpm]
      rw [hfold]
      exact hstep st evs
    · have hpm := processMember_other_user creator sid t et st evs m uid hid
      have hrec := hstep (processMember creator sid t et st evs m).1
        (processMember creator sid t et st evs m).2
      constructor
      · intro i hi hiu
        exact hpm.1 i (hrec.1 i hi hiu) hiu
      · intro e he
        rcases hrec.2 e he with h | h
        · exact hpm.2 e h
        · exact Or.inr h

/-- C10: during session-creation fan-out a group member whose profile has no
email address is skipped entirely: the per-member step leaves the store and
the event trace untouched, and end to end no invite row is created for that
member's id and no conflict-check query or invite insert names it. -/
theorem create_skips_no_email_member (st : Store) (g : GroupId) (caller : UserId)
    (body : CreateBody) (now : Time) (et : String → Bool) (t : Time) (uid : UserId)
    (hm : requireGroupMember st g caller = true)
    (hb : body.start_at = .time t) (ht : now ≤ t)
    (hskip : ∀ m ∈ memberProfiles st g caller, m.id = uid → m.email = none) :
    (∀ (creator : UserId) (sid : SessionId) (t' : Time) (et' : String → Bool)
        (st' : Store) (evs : List Event) (m : Profile), m.email = none →
      processMember creator sid t' et' st' evs m = (st', evs)) ∧
    (∀ i ∈ (createRoute st g caller body now et).store.invites,
      i.user_id = uid → i ∈ st.invites) ∧
    (∀ e ∈ (createRoute st g caller body now et).events,
      e ≠ .queryAcceptedInvites uid ∧ ∀ s', e ≠ .insertInviteEvt s' uid) := by
  refine ⟨fun creator sid t' et' st' evs m h => processMember_skip creator sid t' et' st' evs m h,
    ?_, ?_⟩ <;>
  · unfold createRoute
    rw [hm]
    simp only [hb]
    rw [if_neg (Nat.not_lt.mpr ht)]
    by_cases he : (memberProfiles
        { st with sessions := st.sessions ++ [newSession st g caller body t] } g caller).isEmpty
    · rw [if_pos he]
      first
      | exact fun i hi _ => hi
      | simp
    · rw [if_neg he]
      have hskip' : ∀ m ∈ memberProfiles
          { st with sessions := st.sessions ++ [newSession st g caller body t] } g caller,
          m.id = uid → m.email = none := by
        rw [memberProfiles_sessions_irrel]
        exact hskip
      have hout := fanout_skip_user caller (freshId st) t et uid
        (memberProfiles { st with sessions := st.sessions ++ [newSession st g caller body t] } g caller)
        hskip' { st with sessions := st.sessions ++ [newSession st g caller body t] } []
      first
      | exact fun i hi hiu => hout.1 i hi hiu
      | exact fun e heev => (hout.2 e heev).elim (fun hc => absurd hc (List.not_mem_nil e)) id

/-! ### C9 — notification failure isolation -/

theorem fanout_nil (creator : UserId) (sid : SessionId) (t : Time)
    (et : String → Bool) (st : Store) (evs : List Event) :
    fanout creator sid t et [] st evs = (st, evs) := rfl

theorem fanout_cons (creator : UserId) (sid : SessionId) (t : Time)
    (et : String → Bool) (m : Profile) (ms : List Profile) (st : Store)
    (evs : List Event) :
    fanout creator sid t et (m :: ms) st evs
      = fanout creator sid t et ms (processMember creator sid t et st evs m).1
          (processMember creator sid t et st evs m).2 := rfl

theorem fanout_events_mem (creator : UserId) (sid : SessionId) (t : Time)
    (et : String → Bool) (ms : List Profile) :
    ∀ (st : Store) (evs : List Event) (e : Event), e ∈ evs →
      e ∈ (fanout creator sid t et ms st evs).2 := by
  induction ms with
  | nil => intro st evs e he; exact he
  | cons m ms ih =>
    intro st evs e he
    rw [fanout_cons]
    exact ih _ _ e (processMember_events_mem creator sid t et st evs m e he)

theorem fanout_invites_prefix (creator : UserId) (sid : SessionId) (t : Time)
    (et : String → Bool) (ms : List Profile) :
    ∀ (st : Store) (evs : List Event) (i : Invite), i ∈ st.invites →
      i ∈ (fanout creator sid t et ms st evs).1.invites := by
  induction ms with
  | nil => intro st evs i hi; exact hi
  | cons m ms ih =>
    intro st evs i hi
    rw [fanout_cons]
    obtain ⟨tail, htail, _⟩ := processMember_invites creator sid t et st evs m
    exact ih _ _ i (by rw [htail]; exact List.mem_append_left tail hi)

theorem acceptedSessionIds_append_pending (l : List Invite) (u v : UserId)
    (sid : SessionId) :
    acceptedSessionIds (l ++ [pendingInvite sid v]) u = acceptedSessionIds l u := by
  unfold acceptedSessionIds pendingInvite
  rw [List.filter_append]
  simp

theorem hasConflictCreate_nil (invs : List Invite) (sess : List Session)
    (u : UserId) (t : Time) (h : acceptedSessionIds invs u = []) :
    hasConflictCreate invs sess u t = (false, [.queryAcceptedInvites u]) := by
  simp [hasConflictCreate, h]

theorem processMember_eq_fail_val (creator : UserId) (sid : SessionId) (t : Time)
    (et : String → Bool) (st : Store) (evs : List Event) (m : Profile)
    (addr : String) (cevs : List Event)
    (h1 : m.email = some addr)
    (h2 : hasConflictCreate st.invites st.sessions m.id t = (false, cevs))
    (h3 : et addr = true) :
    processMember creator sid t et st evs m =
      (st, evs ++ cevs ++ [Event.emailFailed addr inviteSubject]) := by
  unfold processMember
  simp [h1, h2, h3, inviteSubject]

theorem processMember_eq_invite_val (creator : UserId) (sid : SessionId) (t : Time)
    (et : String → Bool) (st : Store) (evs : List Event) (m : Profile)
    (addr : String) (cevs : List Event)
    (h1 : m.email = some addr)
    (h2 : hasConflictCreate st.invites st.sessions m.id t = (false, cevs))
    (h3 : et addr = false) :
    processMember creator sid t et st evs m =
      ({ st with invites := st.invites ++ [pendingInvite sid m.id] },
       evs ++ cevs ++ [Event.emailSent addr inviteSubject, Event.insertInviteEvt sid m.id]) := by
  unfold processMember
  simp [h1, h2, h3, inviteSubject, pendingInvite]

/-- The store and event trace the three-member fan-out produces when the
dispatch throws for exactly the middle member and nobody conflicts. -/
theorem fanout_three_spec (creator : UserId) (sid : SessionId) (t : Time)
    (et : String → Bool) (S : Store) (m1 m2 m3 : Profile) (e1 e2 e3 : String)
    (h1 : m1.email = some e1) (h2 : m2.email = some e2) (h3 : m3.email = some e3)
    (het1 : et e1 = false) (het2 : et e2 = true) (het3 : et e3 = false)
    (hc1 : acceptedSessionIds S.invites m1.id = [])
    (hc2 : acceptedSessionIds S.invites m2.id = [])
    (hc3 : acceptedSessionIds S.invites m3.id = []) :
    fanout creator sid t et [m1, m2, m3] S []
      = ({ S with invites := (S.invites ++ [pendingInvite sid m1.id]) ++ [pendingInvite sid m3.id] },
         [Event.queryAcceptedInvites m1.id, Event.emailSent e1 inviteSubject,
          Event.insertInviteEvt sid m1.id,
          Event.queryAcceptedInvites m2.id, Event.emailFailed e2 inviteSubject,
          Event.queryAcceptedInvites m3.id, Event.emailSent e3 inviteSubject,
          Event.insertInviteEvt sid m3.id]) := by
  have hc2' : acceptedSessionIds (S.invites ++ [pendingInvite sid m1.id]) m2.id = [] := by
    rw [acceptedSessionIds_append_pending]
    exact hc2
  have hc3' : acceptedSessionIds (S.invites ++ [pendingInvite sid m1.id]) m3.id = [] := by
    rw [acceptedSessionIds_append_pending]
    exact hc3
  rw [fanout_cons, processMember_eq_invite_val creator sid t et S [] m1 e1
    [Event.queryAcceptedInvites m1.id] h1 (hasConflictCreate_nil _ _ _ _ hc1) het1]
  show fanout creator sid t et [m2, m3]
      { S with invites := S.invites ++ [pendingInvite sid m1.id] }
      [Event.queryAcceptedInvites m1.id, Event.emailSent e1 inviteSubject,
       Event.insertInviteEvt sid m1.id] = _
  rw [fanout_cons, processMember_eq_fail_val creator sid t et
    { S with invites := S.invites ++ [pendingInvite sid m1.id] }
    [Event.queryAcceptedInvites m1.id, Event.emailSent e1 inviteSubject,
     Event.insertInviteEvt sid m1.id] m2 e2
    [Event.queryAcceptedInvites m2.id] h2
    (show hasConflictCreate (S.invites ++ [pendingInvite sid m1.id]) S.sessions m2.id t = _
      from hasConflictCreate_nil _ _ _ _ hc2') het2]
  show fanout creator sid t et [m3]
      { S with invites := S.invites ++ [pendingInvite sid m1.id] }
      [Event.queryAcceptedInvites m1.id, Event.emailSent e1 inviteSubject,
       Event.insertInviteEvt sid m1.id,
       Event.queryAcceptedInvites m2.id, Event.emailFailed e2 inviteSubject] = _
  rw [fanout_cons, processMember_eq_invite_val creator sid t et
    { S with invites := S.invites ++ [pendingInvite sid m1.id] }
    [Event.queryAcceptedInvites m1.id, Event.emailSent e1 inviteSubject,
     Event.insertInviteEvt sid m1.id,
     Event.queryAcceptedInvites m2.id, Event.emailFailed e2 inviteSubject] m3 e3
    [Event.queryAcceptedInvites m3.id] h3
    (show hasConflictCreate (S.invites ++ [pendingInvite sid m1.id]) S.sessions m3.id t = _
      from hasConflictCreate_nil _ _ _ _ hc3') het3]
  rfl

/-- C9: with three invited members all holding emails and no conflicts, a
notification dispatch that throws for exactly the second member leaves the
create operation answering 200, and the other two members both get their
pending invite rows and their invitation notifications; the failed dispatch
is recorded for the second member. -/
theorem create_notification_isolation (st : Store) (g : GroupId) (caller : UserId)
    (body : CreateBody) (now : Time) (et : String → Bool) (t : Time)
    (m1 m2 m3 : Profile) (e1 e2 e3 : String)
    (hm : requireGroupMember st g caller = true)
    (hb : body.start_at = .time t) (ht : now ≤ t)
    (hmem : memberProfiles st g caller = [m1, m2, m3])
    (h1 : m1.email = some e1) (h2 : m2.email = some e2) (h3 : m3.email = some e3)
    (het1 : et e1 = false) (het2 : et e2 = true) (het3 : et e3 = false)
    (hc1 : acceptedSessionIds st.invites m1.id = [])
    (hc2 : acceptedSessionIds st.invites m2.id = [])
    (hc3 : acceptedSessionIds st.invites m3.id = []) :
    (createRoute st g caller body now et).resp.status = 200 ∧
    pendingInvite (freshId st) m1.id ∈ (createRoute st g caller body now et).store.invites ∧
    pendingInvite (freshId st) m3.id ∈ (createRoute st g caller body now et).store.invites ∧
    Event.emailSent e1 inviteSubject ∈ (createRoute st g caller body now et).events ∧
    Event.emailFailed e2 inviteSubject ∈ (createRoute st g caller body now et).events ∧
    Event.emailSent e3 inviteSubject ∈ (createRoute st g caller body now et).events := by
  unfold createRoute
  rw [hm]
  simp only [hb]
  rw [if_neg (Nat.not_lt.mpr ht)]
  have hmm : memberProfiles
      { st with sessions := st.sessions ++ [newSession st g caller body t] } g caller
      = [m1, m2, m3] := by
    rw [memberProfiles_sessions_irrel]
    exact hmem
  rw [hmm]
  rw [if_neg (by simp : ¬ (([m1, m2, m3] : List Profile).isEmpty = true))]
  rw [fanout_three_spec caller (freshId st) t et
    { st with sessions := st.sessions ++ [newSession st g caller body t] }
    m1 m2 m3 e1 e2 e3 h1 h2 h3 het1 het2 het3 hc1 hc2 hc3]
  refine ⟨rfl, ?_, ?_, ?_, ?_, ?_⟩ <;> simp

/-! ### C2 — idempotent RSVP (corrected: re-accept trips the conflict check) -/

theorem upsertInvite_keys_nodup (l : List Invite) (i : Invite)
    (h : (l.map inviteKey).Nodup) : ((upsertInvite l i).map inviteKey).Nodup := by
  unfold upsertInvite
  split
  · next hany =>
    have : (l.map (fun j =>
        if j.session_id == i.session_id && j.user_id == i.user_id then i else j)).map inviteKey
        = l.map inviteKey := by
      rw [List.map_map]
      apply List.map_congr_left
      intro j _
      by_cases hp : (j.session_id == i.session_id && j.user_id == i.user_id) = true
      · have hkey : inviteKey j = inviteKey i := by
          simp only [Bool.and_eq_true, beq_iff_eq] at hp
          simp [inviteKey, hp.1, hp.2]
        simp [Function.comp, hp, hkey]
      · simp [Function.comp, hp]
    rw [this]
    exact h
  · next hany =>
    rw [List.map_append]
    have hni : inviteKey i ∉ l.map inviteKey := by
      intro hmem
      obtain ⟨j, hj, hkey⟩ := List.mem_map.mp hmem
      apply hany
      refine List.any_eq_true.mpr ⟨j, hj, ?_⟩
      simp only [inviteKey, Prod.mk.injEq] at hkey
      simp [hkey.1, hkey.2]
    simp [List.nodup_append, h, hni]

theorem countP_keymatch_le_one (l : List Invite) (i : Invite)
    (h : (l.map inviteKey).Nodup) :
    l.countP (fun j => j.session_id == i.session_id && j.user_id == i.user_id) ≤ 1 := by
  induction l with
  | nil => simp
  | cons j l ih =>
    rw [List.map_cons, List.nodup_cons] at h
    rw [List.countP_cons]
    by_cases hp : (j.session_id == i.session_id && j.user_id == i.user_id) = true
    · have hzero : l.countP (fun j => j.session_id == i.session_id && j.user_id == i.user_id) = 0 := by
        rw [List.countP_eq_zero]
        intro a ha hpa
        apply h.1
        refine List.mem_map.mpr ⟨a, ha, ?_⟩
        simp only [Bool.and_eq_true, beq_iff_eq] at hp hpa
        simp [inviteKey, hp.1, hp.2, hpa.1, hpa.2]
      simp [hp, hzero]
    · simp only [hp]
      simpa using ih h.2

theorem filter_map_replace (l : List Invite) (i : Invite) (p q : Invite → Bool)
    (hqi : q i = true) (hql : ∀ j ∈ l, p j = false → q j = false) :
    ((l.map (fun j => if p j then i else j)).filter q).length = l.countP p := by
  induction l with
  | nil => simp
  | cons j l ih =>
    have ih' := ih (fun a ha => hql a (List.mem_cons_of_mem j ha))
    rw [List.map_cons, List.filter_cons, List.countP_cons]
    by_cases hp : p j = true
    · simp [hp, hqi, ih']
    · have hq : q j = false := hql j (List.mem_cons_self j l) (by simpa using hp)
      simp [hp, hq, ih']

theorem upsertInvite_filter_key (l : List Invite) (i : Invite)
    (hkeys : (l.map inviteKey).Nodup) :
    (upsertInvite l i).filter
      (fun j => j.session_id == i.session_id && j.user_id == i.user_id) = [i] := by
  have hpi : (i.session_id == i.session_id && i.user_id == i.user_id) = true := by simp
  unfold upsertInvite
  split
  · next hany =>
    have hlen := filter_map_replace l i
      (fun j => j.session_id == i.session_id && j.user_id == i.user_id)
      (fun j => j.session_id == i.session_id && j.user_id == i.user_id)
      hpi (fun j _ hf => hf)
    have hle := countP_keymatch_le_one l i hkeys
    have hpos : 0 < l.countP (fun j => j.session_id == i.session_id && j.user_id == i.user_id) := by
      obtain ⟨j, hj, hpj⟩ := List.any_eq_true.mp hany
      exact List.countP_pos.mpr ⟨j, hj, hpj⟩
    have hone : l.countP (fun j => j.session_id == i.session_id && j.user_id == i.user_id) = 1 :=
      Nat.le_antisymm hle hpos
    have hall : ∀ x ∈ (l.map (fun j =>
        if j.session_id == i.session_id && j.user_id == i.user_id then i else j)).filter
          (fun j => j.session_id == i.session_id && j.user_id == i.user_id), x = i := by
      intro x hx
      obtain ⟨hx1, _⟩ := List.mem_filter.mp hx
      obtain ⟨j, _, hj⟩ := List.mem_map.mp hx1
      by_cases hp : (j.session_id == i.session_id && j.user_id == i.user_id) = true
      · rw [if_pos hp] at hj; exact hj.symm
      · rw [if_neg hp] at hj
        subst hj
        obtain ⟨_, hqx⟩ := List.mem_filter.mp hx
        exact absurd hqx hp
    rw [hone] at hlen
    obtain ⟨x, hx⟩ := List.length_eq_one.mp hlen
    rw [hx]
    rw [hall x (hx ▸ List.mem_singleton_self x)]
  · next hany =>
    rw [List.filter_append]
    have hl : l.filter (fun j => j.session_id == i.session_id && j.user_id == i.user_id) = [] := by
      rw [List.filter_eq_nil]
      intro j hj
      intro hpj
      exact hany (List.any_eq_true.mpr ⟨j, hj, hpj⟩)
    rw [hl]
    simp [hpi]

theorem mem_upsertInvite_self (l : List Invite) (i : Invite) : i ∈ upsertInvite l i := by
  unfold upsertInvite
  split
  · next h =>
    obtain ⟨j, hj, hpj⟩ := List.any_eq_true.mp h
    exact List.mem_map.mpr ⟨j, hj, by rw [if_pos hpj]⟩
  · exact List.mem_append_right _ (List.mem_singleton_self i)

theorem mem_acceptedSessionIds_intro (l : List Invite) (u : UserId) (i : Invite)
    (hi : i ∈ l) (hu : i.user_id = u) (hst : i.status = .accepted) :
    i.session_id ∈ acceptedSessionIds l u := by
  unfold acceptedSessionIds
  exact List.mem_map.mpr ⟨i, List.mem_filter.mpr ⟨hi, by simp [hu, hst]⟩, rfl⟩

theorem respondRoute_declined_eq (st : Store) (g : GroupId) (sid : SessionId)
    (u : UserId) (t1 : Time) (et : String → Bool) (session : Session)
    (hm : requireGroupMember st g u = true) (hs : findSession st sid = some session) :
    respondRoute st g sid u "declined" t1 et =
      { resp := { status := 200, msg := "Invite declined" },
        store := { st with invites := upsertInvite st.invites ⟨sid, u, .declined, some t1⟩ },
        events := [.upsertInviteEvt sid u .declined] } := by
  unfold respondRoute
  rw [hm]
  simp only [hs]
  rfl

theorem respondRoute_accept_ok_eq (st : Store) (g : GroupId) (sid : SessionId)
    (u : UserId) (t1 : Time) (et : String → Bool) (session : Session)
    (hm : requireGroupMember st g u = true) (hs : findSession st sid = some session)
    (hfind : (respondConflicts st u).1.find? (fun x => x.start_at == session.start_at) = none) :
    respondRoute st g sid u "accepted" t1 et =
      { resp := { status := 200, msg := "Invite accepted" },
        store := { st with invites := upsertInvite st.invites ⟨sid, u, .accepted, some t1⟩ },
        events := (respondConflicts st u).2 ++ [.upsertInviteEvt sid u .accepted] } := by
  unfold respondRoute
  rw [hm]
  simp only [hs, hfind]
  rfl

theorem respondRoute_accept_conflict (st : Store) (g : GroupId) (sid : SessionId)
    (u : UserId) (t1 : Time) (et : String → Bool) (session : Session) (c : Session)
    (hm : requireGroupMember st g u = true) (hs : findSession st sid = some session)
    (hfind : (respondConflicts st u).1.find? (fun x => x.start_at == session.start_at) = some c)
    (het : ∀ a, et a = false) :
    (respondRoute st g sid u "accepted" t1 et).resp.status = 409 ∧
    (respondRoute st g sid u "accepted" t1 et).store = st := by
  unfold respondRoute
  rw [hm]
  simp only [hs, hfind]
  cases hce : (findProfile st session.creator_id).bind (fun p => p.email) with
  | some ce =>
    simp only [hce, het ce]
    exact ⟨rfl, rfl⟩
  | none =>
    simp only [hce]
    exact ⟨rfl, rfl⟩

/-- C2 counterexample: on a store where u1 is invited to session 1, a first
authenticated accept succeeds with 200, but the identical second accept is
rejected with 409 — the conflict check matches the very session just
accepted, so re-accept is not idempotent. -/
theorem respond_double_accept_409 :
    (respondRoute exStore 1 1 "u1" "accepted" 50 noThrow).resp.status = 200 ∧
    (respondRoute (respondRoute exStore 1 1 "u1" "accepted" 50 noThrow).store
        1 1 "u1" "accepted" 60 noThrow).resp.status = 409 := by
  decide

/-- C2 amended: responding "declined" twice is idempotent — both calls answer
200 "Invite declined", and the single (session,user) row ends with
responded-at from the latest call, no duplicates. Responding "accepted"
twice is NOT idempotent: after a successful first accept, the second accept
(with non-throwing dispatch) answers 409 and leaves the store unchanged,
because the conflict check matches the accepted session itself. -/
theorem respond_idempotency_amended (st : Store) (g : GroupId) (sid : SessionId)
    (u : UserId) (t1 t2 : Time) (et : String → Bool) (session : Session)
    (hm : requireGroupMember st g u = true)
    (hs : findSession st sid = some session)
    (hkeys : (st.invites.map inviteKey).Nodup) :
    ((respondRoute st g sid u "declined" t1 et).resp
        = { status := 200, msg := "Invite declined" } ∧
     (respondRoute (respondRoute st g sid u "declined" t1 et).store
        g sid u "declined" t2 et).resp = { status := 200, msg := "Invite declined" } ∧
     (respondRoute (respondRoute st g sid u "declined" t1 et).store
        g sid u "declined" t2 et).store.invites.filter
          (fun j => j.session_id == sid && j.user_id == u)
        = [{ session_id := sid, user_id := u, status := .declined, responded_at := some t2 }]) ∧
    ((respondRoute st g sid u "accepted" t1 et).resp.status = 200 →
     (∀ a, et a = false) →
     (respondRoute (respondRoute st g sid u "accepted" t1 et).store
        g sid u "accepted" t2 et).resp.status = 409 ∧
     (respondRoute (respondRoute st g sid u "accepted" t1 et).store
        g sid u "accepted" t2 et).store
        = (respondRoute st g sid u "accepted" t1 et).store) := by
  constructor
  · rw [respondRoute_declined_eq st g sid u t1 et session hm hs]
    have hm1 : requireGroupMember
        { st with invites := upsertInvite st.invites ⟨sid, u, .declined, some t1⟩ }
        g u = true := hm
    have hs1 : findSession
        { st with invites := upsertInvite st.invites ⟨sid, u, .declined, some t1⟩ }
        sid = some session := hs
    rw [respondRoute_declined_eq _ g sid u t2 et session hm1 hs1]
    refine ⟨rfl, rfl, ?_⟩
    have hk1 : ((upsertInvite st.invites ⟨sid, u, .declined, some t1⟩).map
          inviteKey).Nodup :=
      upsertInvite_keys_nodup st.invites _ hkeys
    exact upsertInvite_filter_key _ ⟨sid, u, .declined, some t2⟩ hk1
  · intro h200 het
    cases hfind : (respondConflicts st u).1.find? (fun x => x.start_at == session.start_at) with
    | some c =>
      have hres := respondRoute_accept_conflict st g sid u t1 et session c hm hs hfind het
      rw [hres.1] at h200
      exact absurd h200 (by decide)
    | none =>
      have heq := respondRoute_accept_ok_eq st g sid u t1 et session hm hs hfind
      rw [heq]
      have hsid : session.id = sid := by
        have := List.find?_some hs
        simpa using this
      have hmem : session ∈ st.sessions := List.mem_of_find?_eq_some hs
      have hinv : (⟨sid, u, .accepted, some t1⟩ : Invite) ∈ upsertInvite st.invites
            ⟨sid, u, .accepted, some t1⟩ :=
        mem_upsertInvite_self _ _
      have hacc : sid ∈ acceptedSessionIds (upsertInvite st.invites
          ⟨sid, u, .accepted, some t1⟩) u :=
        mem_acceptedSessionIds_intro _ u _ hinv rfl rfl
      have hexists : ∃ x ∈ (respondConflicts
          { st with invites := upsertInvite st.invites ⟨sid, u, .accepted, some t1⟩ }
          u).1, (x.start_at == session.start_at) = true := by
        refine ⟨session, ?_, by simp⟩
        show session ∈ (st.sessions.filter _)
        refine List.mem_filter.mpr ⟨hmem, ?_⟩
        show (acceptedSessionIds (upsertInvite st.invites
          ⟨sid, u, .accepted, some t1⟩) u).contains session.id = true
        rw [hsid]
        exact List.elem_eq_true_of_mem hacc
      obtain ⟨c, hc⟩ := Option.isSome_iff_exists.mp (List.find?_isSome.mpr hexists)
      have hm1 : requireGroupMember
          { st with invites := upsertInvite st.invites ⟨sid, u, .accepted, some t1⟩ }
          g u = true := hm
      have hs1 : findSession
          { st with invites := upsertInvite st.invites ⟨sid, u, .accepted, some t1⟩ }
          sid = some session := hs
      have hres2 := respondRoute_accept_conflict _ g sid u t2 et session c hm1 hs1 hc het
      exact ⟨hres2.1, hres2.2⟩

theorem respond_idempotency_amended_witness :
    requireGroupMember exStore 1 "u1" = true ∧
    (respondRoute exStore 1 1 "u1" "declined" 50 noThrow).resp
      = { status := 200, msg := "Invite declined" } :=
  ⟨by decide,
   (respond_idempotency_amended exStore 1 1 "u1" 50 60 noThrow
      { id := 1, group_id := 1, creator_id := "c1", start_at := 100 }
      (by decide) (by decide) (by decide)).1.1⟩

theorem create_skips_no_email_member_witness :
    requireGroupMember exNoEmailStore 1 "c1" = true ∧
    ∀ e ∈ (createRoute exNoEmailStore 1 "c1" { start_at := .time 200 } 150 noThrow).events,
      e ≠ Event.queryAcceptedInvites "u2" :=
  ⟨by decide,
   fun e he =>
     ((create_skips_no_email_member exNoEmailStore 1 "c1" { start_at := .time 200 } 150
        noThrow 200 "u2" (by decide) rfl (by decide) (by decide)).2.2 e he).1⟩

theorem create_notification_isolation_witness :
    requireGroupMember exThreeStore 1 "c1" = true ∧
    (createRoute exThreeStore 1 "c1" { start_at := .time 100 } 50 oneThrow).resp.status = 200 ∧
    Event.emailFailed "b@x" inviteSubject
      ∈ (createRoute exThreeStore 1 "c1" { start_at := .time 100 } 50 oneThrow).events ∧
    Event.emailSent "a@x" inviteSubject
      ∈ (createRoute exThreeStore 1 "c1" { start_at := .time 100 } 50 oneThrow).events := by
  have H := create_notification_isolation exThreeStore 1 "c1" { start_at := .time 100 } 50
    oneThrow 100
    { id := "a", email := some "a@x", full_name := "A" }
    { id := "b", email := some "b@x", full_name := "B" }
    { id := "d", email := some "d@x", full_name := "D" }
    "a@x" "b@x" "d@x"
    (by decide) rfl (by decide) (by decide) rfl rfl rfl
    (by decide) (by decide) (by decide) rfl rfl rfl
  exact ⟨by decide, H.1, H.2.2.2.2.1, H.2.2.2.1⟩

/-! ### C1 — the no-double-booking invariant -/

theorem le_foldr_max (l : List Nat) (a : Nat) (h : a ∈ l) : a ≤ l.foldr max 0 := by
  induction l with
  | nil => cases h
  | cons x xs ih =>
    rcases List.mem_cons.mp h with h | h
    · subst h
      exact Nat.le_max_left _ _
    · exact Nat.le_trans (ih h) (Nat.le_max_right _ _)

theorem session_id_lt_freshId (st : Store) (s : Session) (h : s.id ∈ st.sessions.map (fun s => s.id)) :
    s.id < freshId st := by
  unfold freshId
  exact Nat.lt_succ_of_le (le_foldr_max _ _ h)

theorem invite_sid_ne_freshId (st : Store)
    (hwf : ∀ i ∈ st.invites, ∃ s ∈ st.sessions, s.id = i.session_id) :
    ∀ i ∈ st.invites, i.session_id ≠ freshId st := by
  intro i hi
  obtain ⟨s, hs, hsid⟩ := hwf i hi
  rw [← hsid]
  exact Nat.ne_of_lt (session_id_lt_freshId st s (List.mem_map.mpr ⟨s, hs, rfl⟩))

theorem findProfile_id (st : Store) (u : UserId) (pr : Profile)
    (h : findProfile st u = some pr) : pr.id = u := by
  have := List.find?_some h
  simpa using this

theorem memberProfiles_ids_sublist (st : Store) (g : GroupId) (c : UserId) :
    ((memberProfiles st g c).map (fun m => m.id)).Sublist
      ((st.group_members.filter (fun p => p.1 == g && p.2 != c)).map (fun p => p.2)) := by
  unfold memberProfiles
  generalize st.group_members.filter (fun p => p.1 == g && p.2 != c) = L
  induction L with
  | nil => simp
  | cons p L ih =>
    rw [List.filterMap_cons]
    cases hp : findProfile st p.2 with
    | none =>
      simp only [List.map_cons]
      exact ih.cons _
    | some pr =>
      simp only [List.map_cons]
      rw [findProfile_id st p.2 pr hp]
      exact ih.cons₂ _

theorem memberProfiles_ids_nodup (st : Store) (g : GroupId) (c : UserId)
    (h : st.group_members.Nodup) :
    ((memberProfiles st g c).map (fun m => m.id)).Nodup := by
  apply List.Nodup.sublist (memberProfiles_ids_sublist st g c)
  have hfil : (st.group_members.filter (fun p => p.1 == g && p.2 != c)).Nodup :=
    h.filter _
  apply List.Nodup.map_on ?_ hfil
  intro x hx y hy hxy
  have hxg : x.1 = g := by
    have := (List.mem_filter.mp hx).2
    simp only [Bool.and_eq_true, beq_iff_eq] at this
    exact this.1
  have hyg : y.1 = g := by
    have := (List.mem_filter.mp hy).2
    simp only [Bool.and_eq_true, beq_iff_eq] at this
    exact this.1
  exact Prod.ext (hxg.trans hyg.symm) hxy

theorem mem_upsertInvite (l : List Invite) (i j : Invite)
    (h : j ∈ upsertInvite l i) : j = i ∨ j ∈ l := by
  unfold upsertInvite at h
  split at h
  · obtain ⟨x, hx, hfx⟩ := List.mem_map.mp h
    by_cases hp : (x.session_id == i.session_id && x.user_id == i.user_id) = true
    · rw [if_pos hp] at hfx
      exact Or.inl hfx.symm
    · rw [if_neg hp] at hfx
      exact Or.inr (hfx ▸ hx)
  · rcases List.mem_append.mp h with h | h
    · exact Or.inr h
    · exact Or.inl (List.mem_singleton.mp h)

theorem filter_map_replace_le (l : List Invite) (i : Invite) (p q : Invite → Bool)
    (hqi : q i = false) :
    ((l.map (fun j => if p j then i else j)).filter q).length ≤ (l.filter q).length := by
  induction l with
  | nil => simp
  | cons j l ih =>
    simp only [List.map_cons, List.filter_cons]
    by_cases hp : p j = true
    · simp only [hp, if_true, hqi, Bool.false_eq_true, if_false]
      by_cases hqj : q j = true
      · simp only [hqj, if_true, List.length_cons]
        exact Nat.le_trans ih (Nat.le_succ _)
      · simp only [Bool.not_eq_true] at hqj
        simp only [hqj, Bool.false_eq_true, if_false]
        exact ih
    · simp only [Bool.not_eq_true] at hp
      simp only [hp, Bool.false_eq_true, if_false]
      by_cases hqj : q j = true
      · simp only [hqj, if_true, List.length_cons]
        exact Nat.succ_le_succ ih
      · simp only [Bool.not_eq_true] at hqj
        simp only [hqj, Bool.false_eq_true, if_false]
        exact ih

theorem filter_upsert_length_le (l : List Invite) (i : Invite) (q : Invite → Bool)
    (hqi : q i = false) :
    ((upsertInvite l i).filter q).length ≤ (l.filter q).length := by
  unfold upsertInvite
  split
  · exact filter_map_replace_le l i _ q hqi
  · rw [List.filter_append]
    simp [hqi]

theorem filter_upsert_of_nil (l : List Invite) (i : Invite) (q : Invite → Bool)
    (hqi : q i = true) (hnil : l.filter q = [])
    (hkeys : (l.map inviteKey).Nodup) :
    ((upsertInvite l i).filter q).length ≤ 1 := by
  have hql : ∀ j ∈ l, q j = false := by
    intro j hj
    by_cases hqj : q j = true
    · exfalso
      have : j ∈ l.filter q := List.mem_filter.mpr ⟨hj, hqj⟩
      rw [hnil] at this
      cases this
    · simpa using hqj
  unfold upsertInvite
  split
  · rw [filter_map_replace l i _ q hqi (fun j hj _ => hql j hj)]
    exact countP_keymatch_le_one l i hkeys
  · rw [List.filter_append, hnil]
    simp [hqi]

/-- The respond route either leaves the store unchanged or upserts exactly
one invite row for (sid, caller); an accepted upsert happens only after the
conflict query found nothing at the session's start instant. -/
theorem respondRoute_store_spec (st : Store) (g : GroupId) (sid : SessionId)
    (u : UserId) (status : String) (now : Time) (et : String → Bool) :
    (respondRoute st g sid u status now et).store = st ∨
    (∃ session, findSession st sid = some session ∧
      (respondConflicts st u).1.find? (fun x => x.start_at == session.start_at) = none ∧
      (respondRoute st g sid u status now et).store
        = { st with invites := upsertInvite st.invites ⟨sid, u, .accepted, some now⟩ }) ∨
    (∃ session, findSession st sid = some session ∧
      (respondRoute st g sid u status now et).store
        = { st with invites := upsertInvite st.invites ⟨sid, u, .declined, some now⟩ }) := by
  unfold respondRoute
  split
  · exact Or.inl rfl
  · split
    · exact Or.inl rfl
    · split
      · exact Or.inl rfl
      · next session hsess =>
        split
        · split
          · split
            · split
              · exact Or.inl rfl
              · exact Or.inl rfl
            · exact Or.inl rfl
          · next hfind => exact Or.inr (Or.inl ⟨session, hsess, hfind, rfl⟩)
        · exact Or.inr (Or.inr ⟨session, hsess, rfl⟩)

theorem acceptedAtP_not_accepted (sessions : List Session) (u : UserId) (t : Time)
    (i : Invite) (h : i.status ≠ .accepted) : acceptedAtP sessions u t i = false := by
  unfold acceptedAtP
  have : (i.status == InviteStatus.accepted) = false := by
    simpa [beq_eq_false_iff_ne] using h
  simp [this]

theorem acceptedAtP_other_user (sessions : List Session) (u v : UserId) (t : Time)
    (i : Invite) (hu : i.user_id = u) (h : u ≠ v) :
    acceptedAtP sessions v t i = false := by
  unfold acceptedAtP
  have : (i.user_id == v) = false := by
    rw [hu]
    simpa [beq_eq_false_iff_ne] using h
  simp [this]

theorem respond_preserves (st : Store) (g : GroupId) (sid : SessionId) (u : UserId)
    (status : String) (now : Time) (et : String → Bool)
    (hwf : WFStore st) (hndb : NoDoubleBooking st) :
    WFStore (respondRoute st g sid u status now et).store ∧
    NoDoubleBooking (respondRoute st g sid u status now et).store := by
  obtain ⟨hw1, hw2, hw3, hw4⟩ := hwf
  rcases respondRoute_store_spec st g sid u status now et with h | ⟨session, hsess, hfind, h⟩ | h
  · rw [h]; exact ⟨⟨hw1, hw2, hw3, hw4⟩, hndb⟩
  · rw [h]
    have hsid : session.id = sid := by
      have := List.find?_some hsess
      simpa using this
    have hsmem : session ∈ st.sessions := List.mem_of_find?_eq_some hsess
    constructor
    · refine ⟨?_, hw2, upsertInvite_keys_nodup st.invites _ hw3, hw4⟩
      intro i hi
      rcases mem_upsertInvite st.invites _ i hi with h' | h'
      · subst h'
        exact ⟨session, hsmem, hsid⟩
      · exact hw1 i h'
    · intro v t
      show ((upsertInvite st.invites ⟨sid, u, .accepted, some now⟩).filter
        (acceptedAtP st.sessions v t)).length ≤ 1
      by_cases hq : acceptedAtP st.sessions v t ⟨sid, u, .accepted, some now⟩ = true
      · -- the upserted row itself joins to a session at (v, t): then v = u and
        -- some stored session with id sid starts at t
        have hq' := hq
        unfold acceptedAtP at hq'
        simp only [Bool.and_eq_true, beq_iff_eq, List.any_eq_true] at hq'
        obtain ⟨⟨huv, -⟩, s', hs'mem, hs'⟩ := hq'
        subst huv
        -- the joined session is the fetched session, so t is its start instant
        have hs'eq : s' = session := by
          apply List.inj_on_of_nodup_map hw2 hs'mem hsmem
          rw [hs'.1, hsid]
        have htT : t = session.start_at := by
          rw [← hs'eq, hs'.2]
        -- no accepted invite of u at t existed: it would have been a conflict
        have hnil : st.invites.filter (acceptedAtP st.sessions u t) = [] := by
          rw [List.filter_eq_nil]
          intro j hj hqj
          unfold acceptedAtP at hqj
          simp only [Bool.and_eq_true, beq_iff_eq, List.any_eq_true] at hqj
          obtain ⟨⟨hju, hjacc⟩, s2, hs2mem, hs2⟩ := hqj
          have hs2in : s2 ∈ (respondConflicts st u).1 := by
            show s2 ∈ st.sessions.filter _
            refine List.mem_filter.mpr ⟨hs2mem, ?_⟩
            show (acceptedSessionIds st.invites u).contains s2.id = true
            rw [hs2.1]
            exact List.elem_eq_true_of_mem
              (mem_acceptedSessionIds_intro st.invites u j hj hju hjacc)
          have := List.find?_eq_none.mp hfind s2 hs2in
          apply this
          rw [hs2.2, htT]
          exact beq_self_eq_true _
        exact filter_upsert_of_nil st.invites ⟨sid, u, .accepted, some now⟩
          (acceptedAtP st.sessions u t) hq hnil hw3
      · have hle := filter_upsert_length_le st.invites ⟨sid, u, .accepted, some now⟩
          (acceptedAtP st.sessions v t) (by simpa using hq)
        exact Nat.le_trans hle (hndb v t)
  · obtain ⟨session, hsess, h⟩ := h
    rw [h]
    have hsid : session.id = sid := by
      have := List.find?_some hsess
      simpa using this
    have hsmem : session ∈ st.sessions := List.mem_of_find?_eq_some hsess
    constructor
    · refine ⟨?_, hw2, upsertInvite_keys_nodup st.invites _ hw3, hw4⟩
      intro i hi
      rcases mem_upsertInvite st.invites _ i hi with h' | h'
      · subst h'
        exact ⟨session, hsmem, hsid⟩
      · exact hw1 i h'
    · intro v t
      show ((upsertInvite st.invites ⟨sid, u, .declined, some now⟩).filter
        (acceptedAtP st.sessions v t)).length ≤ 1
      have hle := filter_upsert_length_le st.invites ⟨sid, u, .declined, some now⟩
        (acceptedAtP st.sessions v t)
        (acceptedAtP_not_accepted st.sessions v t _ (by simp))
      exact Nat.le_trans hle (hndb v t)

theorem create_preserves (st : Store) (g : GroupId) (caller : UserId)
    (body : CreateBody) (now : Time) (et : String → Bool)
    (hwf : WFStore st) (hndb : NoDoubleBooking st) :
    WFStore (createRoute st g caller body now et).store ∧
    NoDoubleBooking (createRoute st g caller body now et).store := by
  obtain ⟨hw1, hw2, hw3, hw4⟩ := hwf
  rcases createRoute_store_spec st g caller body now et with
    h | ⟨t, tail, hb, ht, hsess, hinv, hgm, hprof, htail, hsub⟩
  · rw [h]; exact ⟨⟨hw1, hw2, hw3, hw4⟩, hndb⟩
  · constructor
    · refine ⟨?_, ?_, ?_, ?_⟩
      · intro i hi
        rw [hinv] at hi
        rcases List.mem_append.mp hi with hi | hi
        · obtain ⟨s, hs, hsid2⟩ := hw1 i hi
          exact ⟨s, by rw [hsess]; exact List.mem_append_left _ hs, hsid2⟩
        · refine ⟨newSession st g caller body t, ?_, ?_⟩
          · rw [hsess]
            exact List.mem_append_right _ (List.mem_singleton_self _)
          · exact (htail i hi).2.symm
      · rw [hsess, List.map_append, List.nodup_append]
        refine ⟨hw2, by simp, ?_⟩
        intro a ha hbmem
        simp only [List.map_cons, List.map_nil, List.mem_singleton] at hbmem
        obtain ⟨s, hs, rfl⟩ := List.mem_map.mp ha
        exact absurd hbmem (Nat.ne_of_lt (session_id_lt_freshId st s ha))
      · rw [hinv, List.map_append, List.nodup_append]
        refine ⟨hw3, ?_, ?_⟩
        · have hmap : tail.map inviteKey
              = (tail.map (fun i => i.user_id)).map (fun x => (freshId st, x)) := by
            rw [List.map_map]
            apply List.map_congr_left
            intro i hi
            simp [inviteKey, Function.comp, (htail i hi).2]
          rw [hmap]
          apply List.Nodup.map
          · intro x y hxy
            simpa using hxy
          · exact (memberProfiles_ids_nodup st g caller hw4).sublist hsub
        · intro a ha hbmem
          obtain ⟨j, hj, rfl⟩ := List.mem_map.mp ha
          obtain ⟨i2, hi2, hkey⟩ := List.mem_map.mp hbmem
          have h1 : i2.session_id = j.session_id := congrArg Prod.fst hkey
          have h2 : i2.session_id = freshId st := (htail i2 hi2).2
          exact invite_sid_ne_freshId st hw1 j hj (h1 ▸ h2)
      · rw [hgm]; exact hw4
    · intro v t'
      have hAA : acceptedAt (createRoute st g caller body now et).store v t'
          = (st.invites ++ tail).filter
              (acceptedAtP ((createRoute st g caller body now et).store.sessions) v t') := by
        unfold acceptedAt
        rw [hinv]
      rw [hAA, List.filter_append]
      have htail0 : tail.filter
          (acceptedAtP ((createRoute st g caller body now et).store.sessions) v t') = [] := by
        rw [List.filter_eq_nil]
        intro j hj
        have hstat : j.status ≠ .accepted := by
          rw [(htail j hj).1]
          intro hcon
          cases hcon
        simp [acceptedAtP_not_accepted _ v t' j hstat]
      rw [htail0, List.append_nil]
      have hcong : st.invites.filter
            (acceptedAtP ((createRoute st g caller body now et).store.sessions) v t')
          = st.invites.filter (acceptedAtP st.sessions v t') := by
        apply List.filter_congr
        intro i hi
        rw [hsess]
        unfold acceptedAtP
        rw [List.any_append]
        have hne : ((newSession st g caller body t).id == i.session_id) = false := by
          show (freshId st == i.session_id) = false
          simpa [beq_eq_false_iff_ne] using (invite_sid_ne_freshId st hw1 i hi).symm
        simp [hne]
      rw [hcong]
      exact hndb v t'

theorem runOp_preserves (st : Store) (op : Op)
    (hwf : WFStore st) (hndb : NoDoubleBooking st) :
    WFStore (runOp st op) ∧ NoDoubleBooking (runOp st op) := by
  cases op with
  | createOp g c b now et => exact create_preserves st g c b now et hwf hndb
  | respondOp g sid c status now et =>
    exact respond_preserves st g sid c status now et hwf hndb

/-- C1: starting from any well-formed store satisfying the no-double-booking
invariant, after any sequence of session-create and authenticated respond
operations every user still holds at most one accepted invite per start
instant. -/
theorem noDoubleBooking_invariant (ops : List Op) (st0 : Store)
    (hwf : WFStore st0) (hndb : NoDoubleBooking st0) :
    ∀ u t, (acceptedAt (runOps st0 ops) u t).length ≤ 1 := by
  have main : ∀ (l : List Op) (st : Store), WFStore st → NoDoubleBooking st →
      WFStore (runOps st l) ∧ NoDoubleBooking (runOps st l) := by
    intro l
    induction l with
    | nil => intro st h1 h2; exact ⟨h1, h2⟩
    | cons op l ih =>
      intro st h1 h2
      have h := runOp_preserves st op h1 h2
      exact ih (runOp st op) h.1 h.2
  exact (main ops st0 hwf hndb).2

theorem noDoubleBooking_invariant_witness :
    WFStore exStore ∧
    (acceptedAt (runOps exStore
        [Op.respondOp 1 1 "u1" "accepted" 50 noThrow,
         Op.respondOp 1 1 "u1" "accepted" 60 noThrow]) "u1" 100).length ≤ 1 :=
  ⟨by refine ⟨?_, ?_, ?_, ?_⟩ <;> decide,
   noDoubleBooking_invariant
     [Op.respondOp 1 1 "u1" "accepted" 50 noThrow,
      Op.respondOp 1 1 "u1" "accepted" 60 noThrow]
     exStore
     (by refine ⟨?_, ?_, ?_, ?_⟩ <;> decide)
     (fun u t => by simp [acceptedAt, acceptedAtP, exStore])
     "u1" 100⟩

end LockedIn
